import Mathlib

/-!
Verification of `metrics/resources/plugins.py` (autoupdater-metrics).

The file shallowly embeds the module's logic:

* `Doc` models the Python values that reach `_cleanup`: JSON-ish scalars,
  lists, dicts (insertion-ordered key/value lists, as Python 3.7+ dicts),
  sets, plus the two non-JSON-native types the function special-cases,
  `uuid.UUID` (as its 128-bit numeric value) and `datetime.datetime`
  (as signed microseconds since the Unix epoch, the resolution of Python
  datetimes).
* `cleanup` embeds `_cleanup` (lines 18-42).
* `resolveLimit`, `pluginQuery`, `finalQuery` embed the query translation
  in `PluginsAPI.get` (lines 58-76).
* `pluginsGet`, `pluginsPost`, `pluginGet`, `pluginPut`, `pluginDelete`,
  `updatesGet`, `updatesPost` embed the HTTP handlers.  The document
  store (mongoengine) is modelled as a list of `StoredPlugin` records;
  each ORM call is embedded with its documented semantics (noted at the
  definition).  An exception escaping a handler is turned into an
  HTTP 500 response by flask_restful (`runHandler`).
-/

/-- Python values as seen by `_cleanup`.  A dict is an insertion-ordered
association list (Python 3.7+ semantics); a UUID carries its 128-bit
integer value; a datetime carries microseconds since the Unix epoch. -/
inductive Doc where
  | vnull
  | vbool (b : Bool)
  | vint (n : Int)
  | vstr (s : String)
  | vuuid (u : Nat)
  | vdatetime (t : Int)
  | vlist (xs : List Doc)
  | vdict (kvs : List (String × Doc))
  | vset (xs : List Doc)

/-- Python `val is None`. -/
def Doc.isNull : Doc → Bool
  | .vnull => true
  | _ => false

/-- Line 19: `isinstance(obj, Iterable) and sum(1 for e in obj) == 0`.
`dict`, `list`, `set` and `str` are `collections.Iterable`; `UUID`,
`datetime`, numbers, booleans and `None` are not.  For a dict the sum
counts keys; for a string it counts characters. -/
def isEmptyIterable : Doc → Bool
  | .vstr s => s = ""
  | .vlist xs => xs.isEmpty
  | .vdict kvs => kvs.isEmpty
  | .vset xs => xs.isEmpty
  | _ => false

/-- Python `key.startswith('_')` for the one-character prefix: the first
character of the string is an underscore. -/
def startsUnderscore (s : String) : Bool := s.data.head? == some '_'

/-- Lines 29-32: `if key == "_cls": key = "type"` followed by
`if key.startswith('_'): key = key[1:]` (the second test sees the
possibly renamed key). -/
def renameKey (k : String) : String :=
  let k1 := if k = "_cls" then "type" else k
  if startsUnderscore k1 then k1.drop 1 else k1

/-- Python `dict.__setitem__`: replace the value in place if the key is
present, otherwise append the binding at the end. -/
def dinsert {α : Type} (k : String) (v : α) : List (String × α) → List (String × α)
  | [] => [(k, v)]
  | (k', v') :: rest => if k' = k then (k, v) :: rest else (k', v') :: dinsert k v rest

/-- Hex digit characters as produced by Python (lowercase). -/
def hexDigit (n : Nat) : Char := if n < 10 then Char.ofNat (48 + n) else Char.ofNat (87 + n)

/-- The `w` trailing hexadecimal digits of `n`, most significant first. -/
def hexChars : Nat → Nat → List Char
  | 0, _ => []
  | w + 1, n => hexChars w (n / 16) ++ [hexDigit (n % 16)]

/-- A zero-padded fixed-width lowercase hex field. -/
def hexField (w n : Nat) : String := String.mk (hexChars w n)

/-- Line 38: Python `str(uuid)`, the canonical 8-4-4-4-12 hyphenated
lowercase hex rendering of the UUID's 128-bit value. -/
def uuidStr (u : Nat) : String :=
  hexField 8 (u / 2 ^ 96) ++ "-" ++ hexField 4 (u / 2 ^ 80) ++ "-" ++
    hexField 4 (u / 2 ^ 64) ++ "-" ++ hexField 4 (u / 2 ^ 48) ++ "-" ++ hexField 12 u

/-- Line 40: `int((obj - EPOCH).total_seconds())` for a datetime `t`
microseconds from the epoch: `int(...)` truncates toward zero, which on
the microsecond-exact difference is truncating integer division. -/
def totalSecondsTrunc (t : Int) : Int := Int.tdiv t 1000000

mutual

/-- Lines 18-42: `_cleanup`.  First the empty-iterable check, then type
dispatch: dicts rebuild their entries (dropping `None` values, renaming
keys), lists recurse elementwise, UUIDs render as strings, datetimes as
truncated epoch seconds, and everything else (including non-empty sets
and strings) falls through unchanged. -/
def cleanup (d : Doc) : Doc :=
  if isEmptyIterable d then .vnull
  else match d with
    | .vdict kvs => .vdict (cleanupEntries kvs [])
    | .vlist xs => .vlist (cleanupList xs)
    | .vuuid u => .vstr (uuidStr u)
    | .vdatetime t => .vint (totalSecondsTrunc t)
    | other => other

/-- Lines 23-33: the dict loop.  `acc` is `plugin_dict`; each entry's
value is cleaned, `None` values are skipped, keys are renamed, and the
binding is stored with Python dict assignment semantics. -/
def cleanupEntries : List (String × Doc) → List (String × Doc) → List (String × Doc)
  | [], acc => acc
  | (k, v) :: rest, acc =>
    let v' := cleanup v
    if v'.isNull then cleanupEntries rest acc
    else cleanupEntries rest (dinsert (renameKey k) v' acc)

/-- Line 35: `[_cleanup(i) for i in obj]`. -/
def cleanupList : List Doc → List Doc
  | [] => []
  | x :: xs => cleanup x :: cleanupList xs

end

mutual

/-- Documents on which `_cleanup` behaves as a fixed point after one
application: at every nesting depth there is no empty iterable (no empty
mapping, sequence, set or string), no `None` value, and no mapping key
whose first character is an underscore. -/
def good : Doc → Bool
  | .vnull => false
  | .vbool _ => true
  | .vint _ => true
  | .vstr s => s ≠ ""
  | .vuuid _ => true
  | .vdatetime _ => true
  | .vlist xs => !xs.isEmpty && goodList xs
  | .vdict kvs => !kvs.isEmpty && goodEntries kvs
  | .vset xs => !xs.isEmpty

/-- Every element of the list is `good`. -/
def goodList : List Doc → Bool
  | [] => true
  | x :: xs => good x && goodList xs

/-- Every entry has a key not starting with an underscore and a `good`
value. -/
def goodEntries : List (String × Doc) → Bool
  | [] => true
  | (k, v) :: rest => !startsUnderscore k && good v && goodEntries rest

end

/-- An association-list entry left unchanged by the dict loop of
`_cleanup`: key not underscore-prefixed, value a non-null fixed point of
`cleanup`. -/
def FixedEntry (kv : String × Doc) : Prop :=
  startsUnderscore kv.1 = false ∧ cleanup kv.2 = kv.2 ∧ kv.2 ≠ .vnull

/-- The top-level entries of a dict document. -/
def entriesOf : Doc → List (String × Doc)
  | .vdict kvs => kvs
  | _ => []

/-- Scalars in the sense of claim C3: not a mapping, sequence, set, UUID
or datetime. -/
def isScalar : Doc → Bool
  | .vnull => true
  | .vbool _ => true
  | .vint _ => true
  | .vstr _ => true
  | _ => false

/-- Whitespace Python `int(str)` strips around the literal. -/
def isPySpace (c : Char) : Bool :=
  c == ' ' || c == '\t' || c == '\n' || c == '\r' || c == '\x0b' || c == '\x0c'

/-- Strip leading and trailing whitespace from a character list. -/
def stripChars (cs : List Char) : List Char :=
  ((cs.dropWhile isPySpace).reverse.dropWhile isPySpace).reverse

/-- The value of a decimal digit character, if it is one. -/
def digitVal? (c : Char) : Option Nat :=
  if '0' ≤ c ∧ c ≤ '9' then some (c.toNat - 48) else none

/-- Accumulate a decimal numeral; `none` on any non-digit. -/
def digitsVal : List Char → Nat → Option Nat
  | [], acc => some acc
  | c :: cs, acc =>
    match digitVal? c with
    | none => none
    | some d => digitsVal cs (10 * acc + d)

/-- Python `int(s)` in base 10: optional surrounding whitespace, optional
sign, one or more decimal digits.  `none` models the `ValueError` raised
on anything else. -/
def pyInt? (s : String) : Option Int :=
  match stripChars s.data with
  | [] => none
  | '-' :: ds => if ds = [] then none else (digitsVal ds 0).map (fun n => -(n : Int))
  | '+' :: ds => if ds = [] then none else (digitsVal ds 0).map (fun n => (n : Int))
  | ds => (digitsVal ds 0).map (fun n => (n : Int))

/-- Exceptions that can escape a handler in this module: `ValueError`
from `int()`, mongoengine's `DoesNotExist` and `MultipleObjectsReturned`
from `QuerySet.get`. -/
inductive PyExc where
  | valueError
  | doesNotExist
  | multipleObjects
deriving DecidableEq, Repr

/-- An HTTP response: status code and JSON-ish body. -/
abbrev Resp := Nat × Doc

/-- flask_restful converts an exception escaping a handler into an
HTTP 500 Internal Server Error response. -/
def runHandler : Except PyExc Resp → Resp
  | .error _ => (500, .vnull)
  | .ok r => r

/-- The status code of a handler outcome as seen by the client. -/
def statusOf (e : Except PyExc Resp) : Nat := (runHandler e).1

/-- Lines 60-65: `limit = 20`; if `'limit' in args` then
`limit = int(args['limit'])`, clamped to 300 from above only.  `args`
holds the first value per query-parameter key. -/
def resolveLimit (args : List (String × String)) : Except PyExc Int :=
  match List.lookup "limit" args with
  | none => .ok 20
  | some s =>
    match pyInt? s with
    | none => .error .valueError
    | some n => .ok (if n > 300 then 300 else n)

/-- A database filter value: query parameters stay strings unless coerced
to a boolean. -/
inductive QueryVal where
  | qstr (s : String)
  | qbool (b : Bool)
deriving DecidableEq, Repr

/-- Python `str.lower()` on the ASCII range (the range relevant to the
`"true"`/`"false"` comparisons). -/
def pyCharLower (c : Char) : Char :=
  if 'A' ≤ c ∧ c ≤ 'Z' then Char.ofNat (c.toNat + 32) else c

/-- Lowercase a string. -/
def pyLower (s : String) : String := String.mk (s.data.map pyCharLower)

/-- Line 67: `{k: v for (k, v) in args.items() if k != 'limit' and k != 'type'}`. -/
def pluginQuery (args : List (String × String)) : List (String × String) :=
  args.filter (fun kv => kv.1 != "limit" && kv.1 != "type")

/-- Line 70 filter: `v.lower() == 'true' or v.lower() == 'false'`. -/
def boolish (v : String) : Bool := pyLower v == "true" || pyLower v == "false"

/-- Lines 70-71: `plugin_query.update({k: (v.lower() == 'true') for (k, v)
in plugin_query.items() if v.lower() == 'true' or v.lower() == 'false'})`.
The dict holds mixed string/boolean values afterwards (`QueryVal`);
`update` is repeated dict assignment in iteration order. -/
def finalQuery (args : List (String × String)) : List (String × QueryVal) :=
  let base := (pluginQuery args).map (fun kv => (kv.1, QueryVal.qstr kv.2))
  let overlay := ((pluginQuery args).filter (fun kv => boolish kv.2)).map
    (fun kv => (kv.1, QueryVal.qbool (pyLower kv.2 == "true")))
  overlay.foldl (fun acc kv => dinsert kv.1 kv.2 acc) base

/-- The per-value effect of the translator as claimed: `"true"`/`"false"`
up to case become booleans, every other value stays a string. -/
def coerceVal (v : String) : QueryVal :=
  if pyLower v = "true" then .qbool true
  else if pyLower v = "false" then .qbool false
  else .qstr v

/-- One update entry of a stored plugin: opaque version/changelog payload
plus the attributed server identifier. -/
structure PluginUpdateRec where
  payload : String
  server_id : Option String
deriving DecidableEq, Repr

/-- A stored plugin document.  `spigot` is the variant tag (`SpigotPlugin`
subclass documents live in the same collection, discriminated by `_cls`);
`id` is the UUID's 128-bit value. -/
structure StoredPlugin where
  id : Nat
  name : String
  description : String
  download_url : String
  spigot : Bool
  updates : List PluginUpdateRec
deriving DecidableEq, Repr

/-- Embedding of `to_mongo` for an embedded update document. -/
def toMongoUpdate (u : PluginUpdateRec) : Doc :=
  .vdict [("payload", .vstr u.payload),
    ("server_id", match u.server_id with | none => .vnull | some s => .vstr s)]

/-- Embedding of `to_mongo` for a plugin document: `_id`, the `_cls` discriminator, the
scalar fields and the embedded update list. -/
def toMongoPlugin (p : StoredPlugin) : Doc :=
  .vdict [("_id", .vuuid p.id),
    ("_cls", .vstr (if p.spigot then "Plugin.SpigotPlugin" else "Plugin")),
    ("name", .vstr p.name),
    ("description", .vstr p.description),
    ("download_url", .vstr p.download_url),
    ("updates", .vlist (p.updates.map toMongoUpdate))]

/-- The queryable scalar fields of a stored plugin, by field name. -/
def fieldVal (p : StoredPlugin) : String → Option QueryVal
  | "name" => some (.qstr p.name)
  | "description" => some (.qstr p.description)
  | "download_url" => some (.qstr p.download_url)
  | _ => none

/-- mongoengine `objects(**query)`: every filter entry must match the
same-named document field exactly. -/
def matchesFilter (p : StoredPlugin) (q : List (String × QueryVal)) : Bool :=
  q.all (fun kv => fieldVal p kv.1 == some kv.2)

/-- One character list is a prefix of another (Boolean). -/
def leadsChars : List Char → List Char → Bool
  | [], _ => true
  | _ :: _, [] => false
  | c :: cs, d :: ds => c == d && leadsChars cs ds

/-- Python `needle in haystack` for strings: contiguous substring test. -/
def containsChars (needle : List Char) : List Char → Bool
  | [] => needle.isEmpty
  | d :: ds => leadsChars needle (d :: ds) || containsChars needle ds

/-- Line 72: `'type' in args and 'spigot' in args['type']` (Python `in` on
strings is substring containment). -/
def typeSpigot (args : List (String × String)) : Bool :=
  match List.lookup "type" args with
  | none => false
  | some t => containsChars "spigot".data t.data

/-- mongoengine `QuerySet.limit(n)` (pymongo semantics): `0` means no
limit; a negative value limits like its absolute value. -/
def applyLimit {α : Type} (n : Int) (l : List α) : List α :=
  if n = 0 then l else l.take n.natAbs

/-- Lines 47-82: `PluginsAPI.get`.  Resolve the limit (a non-numeric value
raises `ValueError`), build the filter, choose the collection by the
`type` parameter, query with the id/name projection and the limit, answer
404 on an empty result, else normalize the projected documents. -/
def pluginsGet (db : List StoredPlugin) (args : List (String × String)) :
    Except PyExc Resp := do
  let limit ← resolveLimit args
  let coll := if typeSpigot args then db.filter (fun p => p.spigot) else db
  let plugins := applyLimit limit (coll.filter (fun p => matchesFilter p (finalQuery args)))
  if plugins.length = 0 then
    return (404, .vdict [("error", .vstr "Query returned no response.")])
  else
    return (200, cleanup (.vlist (plugins.map (fun p =>
      .vdict [("_id", .vuuid p.id), ("name", .vstr p.name)]))))

/-- A POST /plugins request body: the scalar plugin fields, an optional
`spigot_name` (whose presence selects the spigot variant), and embedded
update entries. -/
structure CreateBody where
  name : String
  description : String
  download_url : String
  spigot_name : Option String
  updates : List PluginUpdateRec
deriving DecidableEq, Repr

/-- Line 103: default an embedded update's `server_id` to the caller's
identity when it is `None` or empty. -/
def defaultServer (identity : String) (u : PluginUpdateRec) : PluginUpdateRec :=
  match u.server_id with
  | none => { u with server_id := some identity }
  | some s => if s = "" then { u with server_id := some identity } else u

/-- Lines 84-113: `PluginsAPI.post`.  Select the variant from the `type`
query parameter or a `spigot_name` field, assign a fresh id (`freshId`
stands for `uuid.uuid4()`), default embedded updates' server ids to the
caller's identity, reject with 400 when a plugin with the same
(name, description, download_url) already exists, else save. -/
def pluginsPost (db : List StoredPlugin) (args : List (String × String))
    (body : CreateBody) (identity : String) (freshId : Nat) :
    Except PyExc Resp × List StoredPlugin :=
  let isSpigot := typeSpigot args || body.spigot_name.isSome
  let plugin : StoredPlugin :=
    { id := freshId, name := body.name, description := body.description,
      download_url := body.download_url, spigot := isSpigot,
      updates := body.updates.map (defaultServer identity) }
  let duplicates := db.filter (fun p =>
    p.name == body.name && p.description == body.description &&
      p.download_url == body.download_url)
  if duplicates.length > 0 then
    (.ok (400, .vdict [("msg", .vstr "Document already exists.")]), db)
  else
    (.ok (200, .vdict [("id", .vstr (uuidStr freshId))]), db ++ [plugin])

/-- A PUT /plugins/{id} request body: mongoengine `update(**body)` either
applies a field merge (`apply`) or raises `ValueError` on a malformed
field value (`valid = false`), which line 130 catches and treats as zero
documents updated. -/
structure PutBody where
  valid : Bool
  apply : StoredPlugin → StoredPlugin

/-- Lines 120-135: `PluginAPI.put`.  `update` returns the number of
matched documents (zero on a caught `ValueError`); 200 iff positive. -/
def pluginPut (db : List StoredPlugin) (pid : Nat) (body : PutBody) :
    Except PyExc Resp × List StoredPlugin :=
  let cnt := if body.valid then (db.filter (fun p => p.id == pid)).length else 0
  if cnt > 0 then
    (.ok (200, .vstr ""), db.map (fun p => if p.id == pid then body.apply p else p))
  else
    (.ok (404, .vdict [("msg", .vstr "No documents found under that id.")]), db)

/-- Lines 137-149: `PluginAPI.delete`.  `delete` returns the number of
removed documents; 200 iff positive. -/
def pluginDelete (db : List StoredPlugin) (pid : Nat) :
    Except PyExc Resp × List StoredPlugin :=
  let cnt := (db.filter (fun p => p.id == pid)).length
  if cnt > 0 then
    (.ok (200, .vstr ""), db.filter (fun p => !(p.id == pid)))
  else
    (.ok (404, .vdict [("msg", .vstr "No documents found under that id.")]), db)

/-- Lines 151-159: `PluginAPI.get`.  `first_or_404` aborts with an
HTTP 404 response when no document matches, else the document is
normalized. -/
def pluginGet (db : List StoredPlugin) (pid : Nat) : Except PyExc Resp :=
  match db.find? (fun p => p.id == pid) with
  | none => .ok (404, .vnull)
  | some p => .ok (200, cleanup (toMongoPlugin p))

/-- Lines 166-173: `UpdatesAPI.get`.  `get_or_404` aborts with 404 on
`DoesNotExist` and re-raises `MultipleObjectsReturned`; on success only
the update list is normalized. -/
def updatesGet (db : List StoredPlugin) (pid : Nat) : Except PyExc Resp :=
  match db.filter (fun p => p.id == pid) with
  | [] => .ok (404, .vnull)
  | [p] => .ok (200, cleanup (.vlist (p.updates.map toMongoUpdate)))
  | _ => .error .multipleObjects

/-- Lines 175-188: `UpdatesAPI.post`.  `Plugin.objects.get` raises
`DoesNotExist` (uncaught) when nothing matches; otherwise the update
built from the body has its `server_id` overwritten with the caller's
identity, is appended to the plugin's update list, and the plugin is
saved. -/
def updatesPost (db : List StoredPlugin) (pid : Nat) (body : PluginUpdateRec)
    (identity : String) : Except PyExc Resp × List StoredPlugin :=
  match db.filter (fun p => p.id == pid) with
  | [] => (.error .doesNotExist, db)
  | [_] =>
    let upd : PluginUpdateRec := { payload := body.payload, server_id := some identity }
    (.ok (200, .vstr ""),
      db.map (fun q => if q.id == pid then { q with updates := q.updates ++ [upd] } else q))
  | _ => (.error .multipleObjects, db)

/-- Nested induction principle for `Doc` (recursion through the list and
association-list fields). -/
theorem Doc.indOn (motive : Doc → Prop)
    (hnull : motive .vnull)
    (hbool : ∀ b, motive (.vbool b))
    (hint : ∀ n, motive (.vint n))
    (hstr : ∀ s, motive (.vstr s))
    (huuid : ∀ u, motive (.vuuid u))
    (hdt : ∀ t, motive (.vdatetime t))
    (hlist : ∀ xs, (∀ x ∈ xs, motive x) → motive (.vlist xs))
    (hdict : ∀ kvs, (∀ kv ∈ kvs, motive kv.2) → motive (.vdict kvs))
    (hset : ∀ xs, (∀ x ∈ xs, motive x) → motive (.vset xs)) :
    ∀ d, motive d
  | .vnull => hnull
  | .vbool b => hbool b
  | .vint n => hint n
  | .vstr s => hstr s
  | .vuuid u => huuid u
  | .vdatetime t => hdt t
  | .vlist xs => hlist xs (fun x hx =>
      Doc.indOn motive hnull hbool hint hstr huuid hdt hlist hdict hset x)
  | .vdict kvs => hdict kvs (fun kv hkv =>
      Doc.indOn motive hnull hbool hint hstr huuid hdt hlist hdict hset kv.2)
  | .vset xs => hset xs (fun x hx =>
      Doc.indOn motive hnull hbool hint hstr huuid hdt hlist hdict hset x)
termination_by d => sizeOf d
decreasing_by
  · have := List.sizeOf_lt_of_mem hx; simp; omega
  · have := List.sizeOf_lt_of_mem hkv; obtain ⟨k, v⟩ := kv; simp at this ⊢; omega
  · have := List.sizeOf_lt_of_mem hx; simp; omega

theorem goodList_iff (xs : List Doc) :
    goodList xs = true ↔ ∀ x ∈ xs, good x = true := by
  induction xs with
  | nil => simp [goodList]
  | cons x xs ih => simp [goodList, ih]

theorem goodEntries_iff (kvs : List (String × Doc)) :
    goodEntries kvs = true ↔
      ∀ kv ∈ kvs, startsUnderscore kv.1 = false ∧ good kv.2 = true := by
  induction kvs with
  | nil => simp [goodEntries]
  | cons kv rest ih =>
    obtain ⟨k, v⟩ := kv
    simp [goodEntries, ih, Bool.not_eq_true']

theorem cleanupList_eq_map (xs : List Doc) : cleanupList xs = xs.map cleanup := by
  induction xs with
  | nil => simp [cleanupList]
  | cons x xs ih => simp [cleanupList, ih]

theorem isNull_eq_false {d : Doc} : d.isNull = false ↔ d ≠ .vnull := by
  cases d <;> simp [Doc.isNull]

theorem renameKey_id {k : String} (h : startsUnderscore k = false) :
    renameKey k = k := by
  have hk : k ≠ "_cls" := by
    intro hcls
    rw [hcls] at h
    simp [startsUnderscore] at h
  simp [renameKey, hk, h]

theorem mem_dinsert {α : Type} {k : String} {v : α} {l : List (String × α)}
    {kv : String × α} (h : kv ∈ dinsert k v l) : kv = (k, v) ∨ kv ∈ l := by
  induction l with
  | nil => simpa [dinsert] using h
  | cons hd tl ih =>
    obtain ⟨k', v'⟩ := hd
    by_cases hk : k' = k
    · simp [dinsert, hk] at h
      rcases h with h | h
      · exact Or.inl (by simp [h])
      · exact Or.inr (by simp [h])
    · simp [dinsert, hk] at h
      rcases h with h | h
      · exact Or.inr (by simp [h])
      · rcases ih h with h' | h'
        · exact Or.inl h'
        · exact Or.inr (by simp [h'])

theorem dinsert_ne_nil {α : Type} (k : String) (v : α) (l : List (String × α)) :
    dinsert k v l ≠ [] := by
  cases l with
  | nil => simp [dinsert]
  | cons hd tl =>
    obtain ⟨k', v'⟩ := hd
    by_cases hk : k' = k <;> simp [dinsert, hk]

theorem keys_dinsert {α : Type} (k : String) (v : α) (l : List (String × α)) :
    (dinsert k v l).map Prod.fst =
      if k ∈ l.map Prod.fst then l.map Prod.fst else l.map Prod.fst ++ [k] := by
  induction l with
  | nil => simp [dinsert]
  | cons hd tl ih =>
    obtain ⟨k', v'⟩ := hd
    by_cases hk : k' = k
    · simp [dinsert, hk]
    · have hk' : k ≠ k' := fun h => hk h.symm
      by_cases hmem : k ∈ tl.map Prod.fst <;>
        simp [dinsert, hk, hk', hmem, ih]

theorem nodup_keys_dinsert {α : Type} (k : String) (v : α)
    {l : List (String × α)} (h : (l.map Prod.fst).Nodup) :
    ((dinsert k v l).map Prod.fst).Nodup := by
  rw [keys_dinsert]
  by_cases hmem : k ∈ l.map Prod.fst
  · simpa [hmem]
  · simp only [hmem, if_false]
    rw [List.nodup_append]
    refine ⟨h, List.nodup_singleton k, ?_⟩
    intro a ha hak
    simp at hak
    subst hak
    exact hmem ha

theorem dinsert_of_not_mem {α : Type} {k : String} (v : α)
    {l : List (String × α)} (h : k ∉ l.map Prod.fst) :
    dinsert k v l = l ++ [(k, v)] := by
  induction l with
  | nil => simp [dinsert]
  | cons hd tl ih =>
    obtain ⟨k', v'⟩ := hd
    rw [List.map_cons] at h
    simp only [List.mem_cons, not_or] at h
    obtain ⟨h1, h2⟩ := h
    have hk : ¬k' = k := fun hc => h1 hc.symm
    simp [dinsert, hk, ih h2]

theorem hexChars_length (w : Nat) : ∀ n, (hexChars w n).length = w := by
  induction w with
  | zero => intro n; simp [hexChars]
  | succ w ih => intro n; simp [hexChars, ih]

theorem length_dash : ("-" : String).length = 1 := rfl

theorem uuidStr_length (u : Nat) : (uuidStr u).length = 36 := by
  simp [uuidStr, hexField, String.length_append, String.length_mk, hexChars_length,
    length_dash]

theorem uuidStr_ne_empty (u : Nat) : uuidStr u ≠ "" := by
  intro h
  have := uuidStr_length u
  rw [h] at this
  simp at this

theorem cleanupEntries_spec (kvs : List (String × Doc)) :
    ∀ acc : List (String × Doc),
      (∀ kv ∈ kvs, startsUnderscore kv.1 = false ∧ cleanup kv.2 ≠ .vnull ∧
        cleanup (cleanup kv.2) = cleanup kv.2) →
      (∀ kv ∈ acc, FixedEntry kv) → (acc.map Prod.fst).Nodup →
      (∀ kv ∈ cleanupEntries kvs acc, FixedEntry kv) ∧
        ((cleanupEntries kvs acc).map Prod.fst).Nodup ∧
        ((kvs ≠ [] ∨ acc ≠ []) → cleanupEntries kvs acc ≠ []) := by
  induction kvs with
  | nil =>
    intro acc _ hacc hnd
    simp only [cleanupEntries]
    refine ⟨hacc, hnd, ?_⟩
    rintro (h | h)
    · exact absurd rfl h
    · exact h
  | cons kv rest ih =>
    obtain ⟨k, v⟩ := kv
    intro acc hkvs hacc hnd
    obtain ⟨hk1, hk2, hk3⟩ := hkvs (k, v) (by simp)
    have hnn : (cleanup v).isNull = false := isNull_eq_false.mpr hk2
    have hstep : cleanupEntries ((k, v) :: rest) acc =
        cleanupEntries rest (dinsert k (cleanup v) acc) := by
      simp [cleanupEntries, hnn, renameKey_id hk1]
    have hfix' : ∀ kv ∈ dinsert k (cleanup v) acc, FixedEntry kv := by
      intro kv hkv
      rcases mem_dinsert hkv with h | h
      · subst h
        exact ⟨hk1, hk3, hk2⟩
      · exact hacc kv h
    have hnd' := nodup_keys_dinsert k (cleanup v) hnd
    have hrest : ∀ kv ∈ rest, startsUnderscore kv.1 = false ∧ cleanup kv.2 ≠ .vnull ∧
        cleanup (cleanup kv.2) = cleanup kv.2 := fun kv hkv => hkvs kv (by simp [hkv])
    have hres := ih (dinsert k (cleanup v) acc) hrest hfix' hnd'
    rw [hstep]
    refine ⟨hres.1, hres.2.1, ?_⟩
    intro _
    exact hres.2.2 (Or.inr (dinsert_ne_nil _ _ _))

theorem cleanupEntries_fixed (l : List (String × Doc)) :
    ∀ acc : List (String × Doc), (∀ kv ∈ l, FixedEntry kv) →
      (l.map Prod.fst).Nodup →
      (∀ k ∈ l.map Prod.fst, k ∉ acc.map Prod.fst) →
      cleanupEntries l acc = acc ++ l := by
  induction l with
  | nil => intro acc _ _ _; simp [cleanupEntries]
  | cons kv rest ih =>
    obtain ⟨k, v⟩ := kv
    intro acc hfix hnd hdisj
    obtain ⟨hk1, hk2, hk3⟩ := hfix (k, v) (by simp)
    have hnnv : Doc.isNull v = false := isNull_eq_false.mpr hk3
    have hstep : cleanupEntries ((k, v) :: rest) acc =
        cleanupEntries rest (dinsert k v acc) := by
      simp [cleanupEntries, hk2, hnnv, renameKey_id hk1]
    have hka : k ∉ acc.map Prod.fst := hdisj k (by simp)
    have hndr : (rest.map Prod.fst).Nodup := by
      rw [List.map_cons] at hnd
      exact hnd.of_cons
    have hdisj' : ∀ k' ∈ rest.map Prod.fst, k' ∉ (acc ++ [(k, v)]).map Prod.fst := by
      intro k' hk'
      have h1 : k' ∉ acc.map Prod.fst := hdisj k' (by simp [hk'])
      have h2 : k' ≠ k := by
        rw [List.map_cons] at hnd
        intro hc
        subst hc
        exact (List.nodup_cons.mp hnd).1 hk'
      simp [h1, h2]
    rw [hstep, dinsert_of_not_mem v hka,
      ih (acc ++ [(k, v)]) (fun kv hkv => hfix kv (by simp [hkv])) hndr hdisj']
    simp

theorem cleanup_fix : ∀ d : Doc, good d = true →
    cleanup d ≠ .vnull ∧ cleanup (cleanup d) = cleanup d := by
  intro d
  induction d using Doc.indOn with
  | hnull => intro hg; simp [good] at hg
  | hbool b => intro _; exact ⟨by simp [cleanup, isEmptyIterable], by simp [cleanup, isEmptyIterable]⟩
  | hint n => intro _; exact ⟨by simp [cleanup, isEmptyIterable], by simp [cleanup, isEmptyIterable]⟩
  | hstr s =>
    intro hg
    have hs : s ≠ "" := by simpa [good] using hg
    exact ⟨by simp [cleanup, isEmptyIterable, hs], by simp [cleanup, isEmptyIterable, hs]⟩
  | huuid u =>
    intro _
    have h1 : cleanup (.vuuid u) = .vstr (uuidStr u) := by simp [cleanup, isEmptyIterable]
    refine ⟨by simp [h1], ?_⟩
    rw [h1]
    simp [cleanup, isEmptyIterable, uuidStr_ne_empty u]
  | hdt t => intro _; exact ⟨by simp [cleanup, isEmptyIterable], by simp [cleanup, isEmptyIterable]⟩
  | hset xs =>
    intro hg
    have hx : xs.isEmpty = false := by
      simp [good] at hg
      simpa using hg
    exact ⟨by simp [cleanup, isEmptyIterable, hx], by simp [cleanup, isEmptyIterable, hx]⟩
  | hlist xs ih =>
    intro hg
    simp [good, goodList_iff] at hg
    obtain ⟨hne, hall⟩ := hg
    have hxne : xs ≠ [] := by
      intro h
      subst h
      simp at hne
    have h1 : cleanup (.vlist xs) = .vlist (xs.map cleanup) := by
      simp [cleanup, isEmptyIterable, hne, cleanupList_eq_map]
    refine ⟨by simp [h1], ?_⟩
    rw [h1]
    have hmne : (xs.map cleanup).isEmpty = false := by
      simp [List.isEmpty_iff, hxne]
    simp only [cleanup, isEmptyIterable, hmne, if_false, cleanupList_eq_map]
    rw [List.map_map]
    exact congrArg Doc.vlist (List.map_congr_left (fun x hx => (ih x hx (hall x hx)).2))
  | hdict kvs ih =>
    intro hg
    simp [good, goodEntries_iff] at hg
    obtain ⟨hne, hent⟩ := hg
    have hkne : kvs ≠ [] := by
      intro h
      subst h
      simp at hne
    have hspec : ∀ kv ∈ kvs, startsUnderscore kv.1 = false ∧ cleanup kv.2 ≠ .vnull ∧
        cleanup (cleanup kv.2) = cleanup kv.2 := by
      intro kv hkv
      obtain ⟨k, v⟩ := kv
      obtain ⟨hk, hv⟩ := hent k v hkv
      obtain ⟨h1, h2⟩ := ih (k, v) hkv hv
      exact ⟨hk, h1, h2⟩
    obtain ⟨hfix, hnd, hnem⟩ := cleanupEntries_spec kvs [] hspec (by simp) (by simp)
    have hE : cleanupEntries kvs [] ≠ [] := hnem (Or.inl hkne)
    have h1 : cleanup (.vdict kvs) = .vdict (cleanupEntries kvs []) := by
      simp [cleanup, isEmptyIterable, hne]
    refine ⟨by simp [h1], ?_⟩
    rw [h1]
    have hEe : (cleanupEntries kvs []).isEmpty = false := by
      simp [List.isEmpty_iff, hE]
    simp only [cleanup, isEmptyIterable, hEe, if_false]
    rw [cleanupEntries_fixed _ [] hfix hnd (by simp)]
    simp

/-- Claim C1 (amended): `_cleanup` is idempotent on documents that contain,
at every nesting depth, no empty collection or empty string, no null
value, and no mapping key starting with an underscore.  (The original
claim, idempotence for every document, is refuted by
`c1_cleanup_not_idempotent`.) -/
theorem c1_cleanup_idempotent_on_good (d : Doc) (hg : good d = true) :
    cleanup (cleanup d) = cleanup d :=
  (cleanup_fix d hg).2

/-- Claim C1 counterexample: for `D = {"x": {"a": []}}` one application of
`_cleanup` gives `{"x": {}}` but a second application gives `{}`, so
`_cleanup(_cleanup(D)) ≠ _cleanup(D)`. -/
theorem c1_cleanup_not_idempotent :
    cleanup (cleanup (.vdict [("x", .vdict [("a", .vlist [])])])) ≠
      cleanup (.vdict [("x", .vdict [("a", .vlist [])])]) := by
  have h1 : cleanup (.vdict [("x", .vdict [("a", .vlist [])])]) =
      .vdict [("x", .vdict [])] := by
    simp [cleanup, cleanupEntries, cleanupList, dinsert, renameKey, startsUnderscore,
      isEmptyIterable, Doc.isNull]
  have h2 : cleanup (.vdict [("x", .vdict [])]) = .vdict [] := by
    simp [cleanup, cleanupEntries, cleanupList, dinsert, renameKey, startsUnderscore,
      isEmptyIterable, Doc.isNull]
  rw [h1, h2]
  simp

/-- Witness for C1's amended theorem at a concrete good document. -/
theorem c1_witness :
    good (.vdict [("name", .vstr "Foo"), ("tags", .vlist [.vstr "a", .vint 3])]) = true ∧
    cleanup (cleanup (.vdict [("name", .vstr "Foo"), ("tags", .vlist [.vstr "a", .vint 3])])) =
      cleanup (.vdict [("name", .vstr "Foo"), ("tags", .vlist [.vstr "a", .vint 3])]) := by
  have h1 : startsUnderscore "name" = false := rfl
  have h2 : startsUnderscore "tags" = false := rfl
  have hg : good (.vdict [("name", .vstr "Foo"), ("tags", .vlist [.vstr "a", .vint 3])]) = true := by
    simp [good, goodList, goodEntries, h1, h2]
  exact ⟨hg, c1_cleanup_idempotent_on_good _ hg⟩

theorem cleanupEntries_no_null (kvs : List (String × Doc)) :
    ∀ acc, (∀ kv ∈ acc, kv.2 ≠ .vnull) →
      ∀ kv ∈ cleanupEntries kvs acc, kv.2 ≠ .vnull := by
  induction kvs with
  | nil => intro acc hacc; simpa [cleanupEntries] using hacc
  | cons kv rest ih =>
    obtain ⟨k, v⟩ := kv
    intro acc hacc
    by_cases hb : (cleanup v).isNull
    · rw [show cleanupEntries ((k, v) :: rest) acc = cleanupEntries rest acc from by
        simp [cleanupEntries, hb]]
      exact ih acc hacc
    · have hb' : (cleanup v).isNull = false := by simpa using hb
      rw [show cleanupEntries ((k, v) :: rest) acc =
          cleanupEntries rest (dinsert (renameKey k) (cleanup v) acc) from by
        simp [cleanupEntries, hb']]
      apply ih
      intro kv hkv
      rcases mem_dinsert hkv with h | h
      · subst h
        exact isNull_eq_false.mp hb'
      · exact hacc kv h

/-- Claim C2 (amended): an empty iterable at top level normalizes to null;
a mapping entry whose value normalizes to null — in particular any empty
collection — is omitted, so null never occurs as a mapping value in the
output; inside a sequence an empty collection is not omitted but replaced
in place by null.  (The original claim, that no empty collection ever
appears in the output, is refuted by `c2_empty_dict_in_output`: a mapping
all of whose entries are dropped survives as an empty mapping.) -/
theorem c2_empty_normalization :
    (∀ d : Doc, isEmptyIterable d = true → cleanup d = .vnull) ∧
    (∀ kvs : List (String × Doc), ∀ kv ∈ entriesOf (cleanup (.vdict kvs)), kv.2 ≠ .vnull) ∧
    (∀ xs : List Doc, xs ≠ [] → cleanup (.vlist xs) = .vlist (xs.map cleanup)) := by
  refine ⟨?_, ?_, ?_⟩
  · intro d h
    rw [cleanup.eq_def, h]
    simp
  · intro kvs kv hkv
    by_cases he : kvs.isEmpty
    · simp [cleanup, isEmptyIterable, he, entriesOf] at hkv
    · have he' : kvs.isEmpty = false := by simpa using he
      rw [show cleanup (.vdict kvs) = .vdict (cleanupEntries kvs []) from by
        simp [cleanup, isEmptyIterable, he']] at hkv
      simp only [entriesOf] at hkv
      exact cleanupEntries_no_null kvs [] (by simp) kv hkv
  · intro xs hne
    have he : xs.isEmpty = false := by simp [List.isEmpty_iff, hne]
    simp [cleanup, isEmptyIterable, he, cleanupList_eq_map]

/-- Claim C2 counterexample: `_cleanup({"k": {"e": {}}}) = {"k": {}}` — an
empty mapping appears in the normalized output. -/
theorem c2_empty_dict_in_output :
    cleanup (.vdict [("k", .vdict [("e", .vdict [])])]) = .vdict [("k", .vdict [])] ∧
    isEmptyIterable (.vdict []) = true := by
  constructor
  · simp [cleanup, cleanupEntries, cleanupList, dinsert, renameKey, startsUnderscore,
      isEmptyIterable, Doc.isNull]
  · rfl

/-- Witness for C2's amended theorem at a concrete empty iterable. -/
theorem c2_witness :
    isEmptyIterable (.vset []) = true ∧ cleanup (.vset []) = .vnull :=
  ⟨rfl, c2_empty_normalization.1 (.vset []) rfl⟩

/-- Claim C3 (amended): every scalar that is not a mapping, sequence, set,
UUID or timestamp — null, booleans, numbers, and every *non-empty* string
— passes through `_cleanup` unchanged.  (The original claim included the
empty string, refuted by `c3_empty_string_to_null`: `""` is an empty
Python iterable and normalizes to `None`.) -/
theorem c3_scalars_unchanged (d : Doc) (hs : isScalar d = true) (hne : d ≠ .vstr "") :
    cleanup d = d := by
  cases d with
  | vnull => simp [cleanup, isEmptyIterable]
  | vbool b => simp [cleanup, isEmptyIterable]
  | vint n => simp [cleanup, isEmptyIterable]
  | vstr s =>
    have h : s ≠ "" := fun h => hne (by rw [h])
    simp [cleanup, isEmptyIterable, h]
  | vuuid u => simp [isScalar] at hs
  | vdatetime t => simp [isScalar] at hs
  | vlist xs => simp [isScalar] at hs
  | vdict kvs => simp [isScalar] at hs
  | vset xs => simp [isScalar] at hs

/-- Claim C3 counterexample: the empty string is not returned unchanged —
`_cleanup("")` is `None` (the empty string is an empty `Iterable`). -/
theorem c3_empty_string_to_null :
    cleanup (.vstr "") = .vnull ∧ Doc.vnull ≠ Doc.vstr "" := by
  constructor
  · simp [cleanup, isEmptyIterable]
  · exact fun h => Doc.noConfusion h

/-- Witness for C3's amended theorem at a concrete non-empty string. -/
theorem c3_witness :
    isScalar (.vstr "hello") = true ∧ cleanup (.vstr "hello") = .vstr "hello" :=
  ⟨rfl, c3_scalars_unchanged (.vstr "hello") rfl (by simp)⟩

/-- Claim C9: `_cleanup` renders a UUID as its canonical 36-character
hyphenated string and a datetime as the number of seconds from the epoch
truncated toward zero, which is non-negative for datetimes at or after
the epoch. -/
theorem c9_uuid_datetime (u : Nat) (t : Int) :
    cleanup (.vuuid u) = .vstr (uuidStr u) ∧ (uuidStr u).length = 36 ∧
    cleanup (.vdatetime t) = .vint (totalSecondsTrunc t) ∧
    (0 ≤ t → 0 ≤ totalSecondsTrunc t) :=
  ⟨by simp [cleanup, isEmptyIterable], uuidStr_length u,
    by simp [cleanup, isEmptyIterable],
    fun ht => Int.tdiv_nonneg ht (by norm_num)⟩

/-- Witness for C9 at a concrete datetime after the epoch. -/
theorem c9_witness :
    (0 : Int) ≤ 1500000 ∧ 0 ≤ totalSecondsTrunc 1500000 :=
  ⟨by decide, (c9_uuid_datetime 0 1500000).2.2.2 (by decide)⟩

/-- Claim C4 (amended): an omitted `limit` parameter resolves to 20 and a
numeric limit above 300 is clamped to 300, but a non-numeric limit raises
an uncaught `ValueError`, which surfaces as a *server* error (HTTP 500),
not a client error. -/
theorem c4_limit_handling (db : List StoredPlugin) (args : List (String × String)) :
    (List.lookup "limit" args = none → resolveLimit args = .ok 20) ∧
    (∀ s n, List.lookup "limit" args = some s → pyInt? s = some n → 300 < n →
      resolveLimit args = .ok 300) ∧
    (∀ s, List.lookup "limit" args = some s → pyInt? s = none →
      resolveLimit args = .error .valueError ∧ statusOf (pluginsGet db args) = 500) := by
  refine ⟨?_, ?_, ?_⟩
  · intro h
    simp [resolveLimit, h]
  · intro s n hs hn hgt
    simp [resolveLimit, hs, hn, hgt]
  · intro s hs hn
    have hres : resolveLimit args = .error .valueError := by simp [resolveLimit, hs, hn]
    refine ⟨hres, ?_⟩
    simp [pluginsGet, hres, statusOf, runHandler, Bind.bind, Except.bind]

/-- Claim C4 counterexample: `limit=abc` produces HTTP 500 (server error),
not a 4xx client error. -/
theorem c4_bad_limit_is_500 :
    statusOf (pluginsGet [] [("limit", "abc")]) = 500 ∧
    statusOf (pluginsGet [] [("limit", "abc")]) ≠ 400 := by
  constructor <;> decide

/-- Witness for C4's amended theorem at concrete query strings. -/
theorem c4_witness :
    resolveLimit [] = .ok 20 ∧ resolveLimit [("limit", "500")] = .ok 300 ∧
    resolveLimit [("limit", "zzz")] = .error .valueError :=
  ⟨(c4_limit_handling [] []).1 (by decide),
    (c4_limit_handling [] [("limit", "500")]).2.1 "500" 500 (by decide) (by decide) (by decide),
    ((c4_limit_handling [] [("limit", "zzz")]).2.2 "zzz" (by decide) (by decide)).1⟩

/-- Claim C10: the limit is clamped only from above — any value parsed by
`int()` that is at most 300, including 0 and negative integers, is used
verbatim, with no lower bound and no reset to the default. -/
theorem c10_limit_verbatim (args : List (String × String)) (s : String) (n : Int)
    (hs : List.lookup "limit" args = some s) (hn : pyInt? s = some n) (hle : n ≤ 300) :
    resolveLimit args = .ok n := by
  have hng : ¬n > 300 := by omega
  simp [resolveLimit, hs, hn, hng]

/-- Witness for C10 at limit 0 and a negative limit. -/
theorem c10_witness :
    resolveLimit [("limit", "0")] = .ok 0 ∧ resolveLimit [("limit", "-5")] = .ok (-5) :=
  ⟨c10_limit_verbatim [("limit", "0")] "0" 0 (by decide) (by decide) (by decide),
    c10_limit_verbatim [("limit", "-5")] "-5" (-5) (by decide) (by decide) (by decide)⟩

/-- Claim C5 (amended): for a plugin id with no matching document, GET,
PUT and DELETE on the item route and GET on the updates route answer
HTTP 404, but POST /plugins/{id}/updates uses bare `QuerySet.get`, whose
uncaught `DoesNotExist` surfaces as HTTP 500 instead of 404. -/
theorem c5_missing_plugin (db : List StoredPlugin) (pid : Nat)
    (pbody : PutBody) (ubody : PluginUpdateRec) (identity : String)
    (h : ∀ p ∈ db, p.id ≠ pid) :
    statusOf (pluginGet db pid) = 404 ∧
    statusOf (pluginPut db pid pbody).1 = 404 ∧
    statusOf (pluginDelete db pid).1 = 404 ∧
    statusOf (updatesGet db pid) = 404 ∧
    statusOf (updatesPost db pid ubody identity).1 = 500 := by
  have hfind : db.find? (fun p => p.id == pid) = none := by
    rw [List.find?_eq_none]
    intro p hp
    simp [h p hp]
  have hfilt : db.filter (fun p => p.id == pid) = [] := by
    rw [List.filter_eq_nil_iff]
    intro p hp
    simp [h p hp]
  refine ⟨?_, ?_, ?_, ?_, ?_⟩
  · simp [pluginGet, hfind, statusOf, runHandler]
  · simp [pluginPut, hfilt, statusOf, runHandler]
  · simp [pluginDelete, hfilt, statusOf, runHandler]
  · simp [updatesGet, hfilt, statusOf, runHandler]
  · simp [updatesPost, hfilt, statusOf, runHandler]

/-- Claim C5 counterexample: POST /plugins/{id}/updates for an unknown id
answers 500, not the claimed 404. -/
theorem c5_post_updates_500 :
    statusOf (updatesPost [] 0 { payload := "", server_id := none } "srv").1 = 500 ∧
    statusOf (updatesPost [] 0 { payload := "", server_id := none } "srv").1 ≠ 404 := by
  constructor <;> decide

/-- Witness for C5's amended theorem on an empty store. -/
theorem c5_witness :
    statusOf (pluginGet [] 0) = 404 ∧
    statusOf (pluginPut [] 0 ⟨true, fun p => p⟩).1 = 404 ∧
    statusOf (pluginDelete [] 0).1 = 404 ∧
    statusOf (updatesGet [] 0) = 404 ∧
    statusOf (updatesPost [] 0 ⟨"v1", none⟩ "srv").1 = 500 :=
  c5_missing_plugin [] 0 ⟨true, fun p => p⟩ ⟨"v1", none⟩ "srv" (by simp)

/-- Claim C6: when a stored plugin already matches the create request's
(name, description, download_url) triple, `PluginsAPI.post` answers 400
and the store is unchanged — the duplicate check happens before `save`. -/
theorem c6_duplicate_create (db : List StoredPlugin) (args : List (String × String))
    (body : CreateBody) (identity : String) (freshId : Nat) (p : StoredPlugin)
    (hp : p ∈ db) (hname : p.name = body.name) (hdesc : p.description = body.description)
    (hurl : p.download_url = body.download_url) :
    statusOf (pluginsPost db args body identity freshId).1 = 400 ∧
    (pluginsPost db args body identity freshId).2 = db := by
  have hmem : p ∈ db.filter (fun q =>
      q.name == body.name && q.description == body.description &&
        q.download_url == body.download_url) := by
    rw [List.mem_filter]
    exact ⟨hp, by simp [hname, hdesc, hurl]⟩
  have hlen : 0 < (db.filter (fun q =>
      q.name == body.name && q.description == body.description &&
        q.download_url == body.download_url)).length :=
    List.length_pos.mpr (List.ne_nil_of_mem hmem)
  constructor
  · simp [pluginsPost, statusOf, runHandler, hlen]
  · simp [pluginsPost, hlen]

/-- Witness for C6 at a concrete duplicate triple. -/
theorem c6_witness :
    statusOf (pluginsPost [⟨1, "X", "Y", "Z", false, []⟩] [] ⟨"X", "Y", "Z", none, []⟩ "srv" 2).1 = 400 ∧
    (pluginsPost [⟨1, "X", "Y", "Z", false, []⟩] [] ⟨"X", "Y", "Z", none, []⟩ "srv" 2).2 =
      [⟨1, "X", "Y", "Z", false, []⟩] :=
  c6_duplicate_create [⟨1, "X", "Y", "Z", false, []⟩] [] ⟨"X", "Y", "Z", none, []⟩ "srv" 2
    ⟨1, "X", "Y", "Z", false, []⟩ (by decide) rfl rfl rfl

/-- Claim C7: appending an update to an existing plugin stores a
PluginUpdate whose `server_id` is the caller's authenticated identity —
overwriting any value supplied in the body — appended at the end of that
plugin's update sequence in the persisted store, and answers 200. -/
theorem c7_append_update (db : List StoredPlugin) (pid : Nat)
    (body : PluginUpdateRec) (identity : String) (p : StoredPlugin)
    (hp : db.filter (fun q => q.id == pid) = [p]) :
    (updatesPost db pid body identity).1 = .ok (200, .vstr "") ∧
    (PluginUpdateRec.mk body.payload (some identity)).server_id = some identity ∧
    (updatesPost db pid body identity).2.filter (fun q => q.id == pid) =
      [{ p with updates := p.updates ++ [PluginUpdateRec.mk body.payload (some identity)] }] := by
  have hpmem : p ∈ db.filter (fun q => q.id == pid) := by
    rw [hp]
    exact List.mem_singleton.mpr rfl
  have hpid : (p.id == pid) = true := (List.mem_filter.mp hpmem).2
  have h2 : (updatesPost db pid body identity).2 =
      db.map (fun q => if q.id == pid then
        { q with updates := q.updates ++ [PluginUpdateRec.mk body.payload (some identity)] }
        else q) := by
    simp [updatesPost, hp]
  refine ⟨by simp [updatesPost, hp], rfl, ?_⟩
  rw [h2, List.filter_map]
  have hcg : db.filter ((fun q => q.id == pid) ∘ (fun q => if q.id == pid then
      { q with updates := q.updates ++ [PluginUpdateRec.mk body.payload (some identity)] }
      else q)) = db.filter (fun q => q.id == pid) := by
    apply List.filter_congr
    intro q hq
    by_cases h : q.id == pid <;> simp [Function.comp, h]
  rw [hcg, hp]
  have hpe : p.id = pid := by simpa using hpid
  simp [hpe]

/-- Witness for C7: one stored plugin, an update body carrying a stale
server id, and the caller identity that must replace it. -/
theorem c7_witness :
    (updatesPost [⟨7, "N", "D", "U", false, [⟨"v0", some "old"⟩]⟩] 7 ⟨"v1", some "bogus"⟩ "caller").1 =
      .ok (200, .vstr "") ∧
    (PluginUpdateRec.mk "v1" (some "caller")).server_id = some "caller" ∧
    (updatesPost [⟨7, "N", "D", "U", false, [⟨"v0", some "old"⟩]⟩] 7 ⟨"v1", some "bogus"⟩ "caller").2.filter
        (fun q => q.id == 7) =
      [⟨7, "N", "D", "U", false, [⟨"v0", some "old"⟩, ⟨"v1", some "caller"⟩]⟩] :=
  c7_append_update [⟨7, "N", "D", "U", false, [⟨"v0", some "old"⟩]⟩] 7 ⟨"v1", some "bogus"⟩
    "caller" ⟨7, "N", "D", "U", false, [⟨"v0", some "old"⟩]⟩ (by decide)

theorem foldl_dinsert_cons {α : Type} (ov : List (String × α)) :
    ∀ (acc : List (String × α)) (k : String) (x : α), k ∉ ov.map Prod.fst →
      ov.foldl (fun acc kv => dinsert kv.1 kv.2 acc) ((k, x) :: acc) =
        (k, x) :: ov.foldl (fun acc kv => dinsert kv.1 kv.2 acc) acc := by
  induction ov with
  | nil => intros; simp
  | cons kv rest ih =>
    obtain ⟨k', v'⟩ := kv
    intro acc k x hk
    rw [List.map_cons] at hk
    simp only [List.mem_cons, not_or] at hk
    obtain ⟨h1, h2⟩ := hk
    simp only [List.foldl_cons]
    rw [show dinsert k' v' ((k, x) :: acc) = (k, x) :: dinsert k' v' acc from by
      simp [dinsert, h1]]
    exact ih (dinsert k' v' acc) k x h2

theorem overlay_fold (l : List (String × String)) :
    (l.map Prod.fst).Nodup →
      ((l.filter (fun kv => boolish kv.2)).map
          (fun kv => (kv.1, QueryVal.qbool (pyLower kv.2 == "true")))).foldl
        (fun acc kv => dinsert kv.1 kv.2 acc)
        (l.map (fun kv => (kv.1, QueryVal.qstr kv.2))) =
      l.map (fun kv => (kv.1, coerceVal kv.2)) := by
  induction l with
  | nil => intro _; simp
  | cons kv rest ih =>
    obtain ⟨k, v⟩ := kv
    intro hnd
    rw [List.map_cons] at hnd
    have hknr : k ∉ rest.map Prod.fst := (List.nodup_cons.mp hnd).1
    have hndr : (rest.map Prod.fst).Nodup := (List.nodup_cons.mp hnd).2
    have hover : k ∉ ((rest.filter (fun kv => boolish kv.2)).map
        (fun kv => (kv.1, QueryVal.qbool (pyLower kv.2 == "true")))).map Prod.fst := by
      intro hc
      apply hknr
      rw [List.map_map] at hc
      simp only [List.mem_map, Function.comp] at hc
      obtain ⟨kv, hkv, hfst⟩ := hc
      simp only [List.mem_map]
      exact ⟨kv, List.mem_of_mem_filter hkv, hfst⟩
    by_cases hb : boolish v
    · have hcv : coerceVal v = .qbool (pyLower v == "true") := by
        simp only [boolish, Bool.or_eq_true, beq_iff_eq] at hb
        rcases hb with h | h
        · simp [coerceVal, h]
        · by_cases h2 : pyLower v = "true"
          · simp [coerceVal, h2]
          · simp [coerceVal, h2, h]
      rw [show ((k, v) :: rest).filter (fun kv => boolish kv.2) =
          (k, v) :: rest.filter (fun kv => boolish kv.2) from by simp [hb]]
      simp only [List.map_cons, List.foldl_cons]
      rw [show dinsert k (QueryVal.qbool (pyLower v == "true"))
          ((k, QueryVal.qstr v) :: rest.map (fun kv => (kv.1, QueryVal.qstr kv.2))) =
          (k, QueryVal.qbool (pyLower v == "true")) ::
            rest.map (fun kv => (kv.1, QueryVal.qstr kv.2)) from by simp [dinsert]]
      rw [foldl_dinsert_cons _ _ _ _ hover, ih hndr, hcv]
    · have hbf : boolish v = false := by simpa using hb
      have hcv : coerceVal v = .qstr v := by
        have h1 : pyLower v ≠ "true" := fun h => by simp [boolish, h] at hbf
        have h2 : pyLower v ≠ "false" := fun h => by simp [boolish, h] at hbf
        simp [coerceVal, h1, h2]
      rw [show ((k, v) :: rest).filter (fun kv => boolish kv.2) =
          rest.filter (fun kv => boolish kv.2) from by simp [hbf]]
      simp only [List.map_cons]
      rw [foldl_dinsert_cons _ _ _ _ hover, ih hndr, hcv]

/-- Claim C8: the Query Translator drops `limit` and `type` from the
filter; every other query parameter becomes an exact-match filter entry
under the same name, with values equal to `"true"`/`"false"` up to case
coerced to booleans and every other value kept as a string. -/
theorem c8_query_translation (args : List (String × String))
    (hnd : (args.map Prod.fst).Nodup) :
    "limit" ∉ (finalQuery args).map Prod.fst ∧
    "type" ∉ (finalQuery args).map Prod.fst ∧
    finalQuery args = (args.filter (fun kv => kv.1 != "limit" && kv.1 != "type")).map
      (fun kv => (kv.1, coerceVal kv.2)) := by
  have hndf : ((args.filter (fun kv => kv.1 != "limit" && kv.1 != "type")).map Prod.fst).Nodup :=
    ((List.filter_sublist args).map Prod.fst).nodup hnd
  have heq : finalQuery args = (args.filter (fun kv => kv.1 != "limit" && kv.1 != "type")).map
      (fun kv => (kv.1, coerceVal kv.2)) := by
    unfold finalQuery pluginQuery
    exact overlay_fold _ hndf
  refine ⟨?_, ?_, heq⟩
  · rw [heq]
    intro hc
    rw [List.map_map] at hc
    simp only [List.mem_map, Function.comp] at hc
    obtain ⟨kv, hkv, hfst⟩ := hc
    have hq := (List.mem_filter.mp hkv).2
    simp at hq
    exact hq.1 hfst
  · rw [heq]
    intro hc
    rw [List.map_map] at hc
    simp only [List.mem_map, Function.comp] at hc
    obtain ⟨kv, hkv, hfst⟩ := hc
    have hq := (List.mem_filter.mp hkv).2
    simp at hq
    exact hq.2 hfst

/-- Witness for C8 at a concrete query string. -/
theorem c8_witness :
    ([("limit", "5"), ("type", "spigot"), ("name", "Foo"), ("active", "TRUE"),
        ("flag", "false")].map Prod.fst).Nodup ∧
    finalQuery [("limit", "5"), ("type", "spigot"), ("name", "Foo"), ("active", "TRUE"),
        ("flag", "false")] =
      [("name", .qstr "Foo"), ("active", .qbool true), ("flag", .qbool false)] := by
  refine ⟨by decide, ?_⟩
  have h := (c8_query_translation [("limit", "5"), ("type", "spigot"), ("name", "Foo"),
    ("active", "TRUE"), ("flag", "false")] (by decide)).2.2
  rw [h]
  decide
